import Mathlib

/-!
Verification of the JSONL record-stream mapping engine found in
`azureml/components/src/shared/jsonl_utils.py` (sequential mapper) and
`azureml/components/src/shared/jsonl_utils_parallel.py` (parallel mapper).

The embedding models each output file as the list of `write()` calls made on
it (a `List String`); the file's final text is the concatenation of those
strings.  Records are JSON objects, modelled as association lists from keys
to a small JSON value type sufficient for the scenarios the engine is used
with.  A transform (`map_func`) is modelled as a function returning
`Except Unit (Option Rec)`: `.error` models the Python function raising an
exception, `.ok none` models returning `None`, `.ok (some r)` a replacement
record.  Wall-clock timing (`time.time()` deltas in the parallel adapter) is
not modelled; only the *length* of the `all_times` list matters to control
flow (the `min(all_times)` call after the parallel loop), so that length is
tracked as a natural number.
-/

/-- A JSON scalar value, as far as the engine's scenarios need. -/
inductive JVal where
  | jnum (n : Int)
  | jstr (s : String)
deriving DecidableEq, Repr

/-- A JSON object record: association list of keys to values
(Python `dict[str, Any]`). -/
abbrev Rec := List (String × JVal)

/-- The transform supplied by the caller
(`Callable[[dict[str, Any]], dict[str, Any] | None]`); `.error` models a
raised exception. -/
abbrev MapFunc := Rec → Except Unit (Option Rec)

/-- `json.dumps` of a scalar value. -/
def JVal.dumps : JVal → String
  | .jnum n => toString n
  | .jstr s => "\x22" ++ s ++ "\x22"

/-- `json.dumps` of the members of an object, with Python's default
separators (comma-space, colon-space). -/
def dumpsMembers : List (String × JVal) → String
  | [] => ""
  | [(k, v)] => "\x22" ++ k ++ "\x22: " ++ v.dumps
  | (k, v) :: rest => "\x22" ++ k ++ "\x22: " ++ v.dumps ++ ", " ++ dumpsMembers rest

/-- `json.dumps` of a record (JSON object). -/
def dumps (r : Rec) : String := "\x7b" ++ dumpsMembers r ++ "\x7d"

/-- `json.dumps` applied to an optional record (`json.dumps(None)` is
`null`). -/
def dumpsOpt : Option Rec → String
  | some r => dumps r
  | none => "null"

/-- Split a character stream at every line terminator; `acc` holds the
(reversed) characters of the line being assembled. -/
def splitNewlines : List Char → List Char → List (List Char)
  | [], acc => [acc.reverse]
  | c :: cs, acc =>
    if c = '\n' then acc.reverse :: splitNewlines cs []
    else splitNewlines cs (c :: acc)

/-- The lines of a file whose write calls were `writes`: concatenate the
writes and split at the line terminators, discarding empty segments. -/
def fileLines (writes : List String) : List String :=
  ((splitNewlines (String.join writes).toList []).map (fun cs => String.mk cs)).filter
    (fun s => s ≠ "")

/-- Result of one run of the sequential mapper `line_map`:
the write calls made on the destination file and on the error sink, the
`successful_lines` and `error_lines` counters, and whether the run aborted
by raising `ValueError` (the too-many-errors condition). -/
structure SeqRun where
  destWrites : List String
  errWrites : List String
  successes : Nat
  errors : Nat
  aborted : Bool
deriving DecidableEq, Repr

/-- The value `line_map` returns to its caller: `None` (no value) when the
run aborted with an exception, the pair
`(successful_lines, error_lines)` on normal completion. -/
def SeqRun.retval (r : SeqRun) : Option (Nat × Nat) :=
  if r.aborted then none else some (r.successes, r.errors)

/-- The body of `line_map`'s `for nxt in in_file` loop
(jsonl_utils.py lines 42-61).  Each iteration: apply `map_func`; on success
with a non-`None` result write `json.dumps(nxt_output)` and `"\n"` to the
destination and increment `successful_lines`; on success with `None` write
nothing and increment `successful_lines`; on an exception write
`json.dumps(nxt)` (and nothing else — no terminator) to the error sink and
increment `error_lines`.  After every iteration, if
`max_errors > 0 and error_lines > max_errors`, raise `ValueError`. -/
def line_map_go (f : MapFunc) (max_errors : Int) :
    List Rec → List String → List String → Nat → Nat → SeqRun
  | [], dw, ew, s, e => ⟨dw, ew, s, e, false⟩
  | r :: rest, dw, ew, s, e =>
    let step : List String × List String × Nat × Nat :=
      match f r with
      | .ok (some o) => (dw ++ [dumps o, "\n"], ew, s + 1, e)
      | .ok none => (dw, ew, s + 1, e)
      | .error _ => (dw, ew ++ [dumps r], s, e + 1)
    match step with
    | (dw', ew', s', e') =>
      if 0 < max_errors ∧ max_errors < (e' : Int) then ⟨dw', ew', s', e', true⟩
      else line_map_go f max_errors rest dw' ew' s' e'

/-- `line_map(map_func=f, ..., max_errors)` on a source file holding
`records`, starting from the code's initial state
(`successful_lines = 0`, `error_lines = 0`, no writes yet). -/
def line_map (f : MapFunc) (max_errors : Int) (records : List Rec) : SeqRun :=
  line_map_go f max_errors records [] [] 0 0

/-- Number of records of `records` on which the transform raises. -/
def countErrors (f : MapFunc) (records : List Rec) : Nat :=
  (records.filter (fun r => match f r with | .error _ => true | _ => false)).length

/-- Number of records of `records` on which the transform succeeds
(returning `None` or a record). -/
def countOk (f : MapFunc) (records : List Rec) : Nat :=
  (records.filter (fun r => match f r with | .ok _ => true | _ => false)).length

/-- The destination write calls a full (non-aborted) sequential run makes:
per successful record with non-`None` output, the dumped output then the
terminator. -/
def destWritesOf (f : MapFunc) (records : List Rec) : List String :=
  records.flatMap (fun r =>
    match f r with
    | .ok (some o) => [dumps o, "\n"]
    | .ok none => []
    | .error _ => [])

/-- The error-sink write calls a full (non-aborted) sequential run makes:
per raising record, the dumped original record (no terminator). -/
def errWritesOf (f : MapFunc) (records : List Rec) : List String :=
  records.flatMap (fun r =>
    match f r with
    | .ok _ => []
    | .error _ => [dumps r])

/-- The concrete transform of the spec's scenarios: double field `a`,
raise if it is not numeric. -/
def doubleA : MapFunc := fun r =>
  match r.find? (fun p => p.1 = "a") with
  | some (_, JVal.jnum n) => Except.ok (some [("a", JVal.jnum (2 * n))])
  | _ => Except.error ()

/-- A transform that raises on every record. -/
def failAll : MapFunc := fun _ => Except.error ()

/-- The spec scenario's three-record input
`[\x7b"a":1\x7d, \x7b"a":2\x7d, \x7b"a":"bad"\x7d]`. -/
def input3 : List Rec :=
  [[("a", JVal.jnum 1)], [("a", JVal.jnum 2)], [("a", JVal.jstr "bad")]]

/-- A transform that returns `None` for every record. -/
def dropAll : MapFunc := fun _ => Except.ok none

/-- Two-record input used to exercise the error sink with more than one
rejected record. -/
def twoRecs : List Rec := [[("a", JVal.jnum 1)], [("a", JVal.jnum 2)]]

/-- `ItemState` of jsonl_utils_parallel.py. -/
inductive ItemState where
  | Success
  | Failure
deriving DecidableEq, Repr

/-- `MapResult` of jsonl_utils_parallel.py, minus the wall-clock `time`
field (a float measured with `time.time()`, not modelled). -/
structure MapResult where
  state : ItemState := ItemState.Success
  result : Option Rec := none
deriving DecidableEq, Repr

/-- `_map_wrapper(item, map_func=...)` (jsonl_utils_parallel.py lines
52-69): call the transform inside `try`; on success store its output with
state `Success`; if it raises, store the original `item` with state
`Failure`.  The adapter itself returns in either case (it is total): no
transform exception escapes it. -/
def map_wrapper (item : Rec) (map_func : MapFunc) : MapResult :=
  match map_func item with
  | .ok v => { state := ItemState.Success, result := v }
  | .error _ => { state := ItemState.Failure, result := some item }

/-- How one run of `line_map_parallel` ends:
`completed` — the collector loop and the closing statistics logging both
finish (the function then falls off its body, returning `None`);
`tooManyErrors` — `raise Exception("Too many errors...")` from the
collector loop;
`emptyStatsError` — the loop finished but `all_times` is empty, so the
`min(all_times)` inside the first post-loop log call raises `ValueError`. -/
inductive ParOutcome where
  | completed
  | tooManyErrors
  | emptyStatsError
deriving DecidableEq, Repr

/-- Observable result of one run of `line_map_parallel`: write calls on the
destination and error files, the `n_errors` counter, how the run ended, and
the value returned to the caller.  The Python function body contains no
`return` statement, so `retval` is `none` on every path (normal completion
returns `None`; exceptional exits return nothing). -/
structure ParRun where
  destWrites : List String
  errWrites : List String
  nErrors : Nat
  outcome : ParOutcome
  retval : Option (Nat × Nat)
deriving DecidableEq, Repr

/-- The collector loop of `line_map_parallel` (`for r in result`,
jsonl_utils_parallel.py lines 101-117) followed by the statistics logging
(lines 118-120).  One wrapped result is consumed per item of the remaining
work list; `nTimes` counts `all_times.append(r.time)` calls.  A `Success`
with non-`None` payload writes the dumped payload and `"\n"` to the
destination; a `Success` with `None` writes nothing; a `Failure` writes
`json.dumps(r.result)` and `"\n"` to the error sink, increments `n_errors`,
and raises when `n_errors > n_errors_max`.  After the loop, `min(all_times)`
raises `ValueError` when no item was consumed. -/
def line_map_parallel_go (f : MapFunc) (n_errors_max : Int) :
    List Rec → List String → List String → Nat → Nat → ParRun
  | [], dw, ew, nerr, nTimes =>
    if nTimes = 0 then ⟨dw, ew, nerr, ParOutcome.emptyStatsError, none⟩
    else ⟨dw, ew, nerr, ParOutcome.completed, none⟩
  | item :: rest, dw, ew, nerr, nTimes =>
    let r := map_wrapper item f
    if r.state = ItemState.Success then
      match r.result with
      | some out =>
        line_map_parallel_go f n_errors_max rest (dw ++ [dumps out, "\n"]) ew nerr (nTimes + 1)
      | none =>
        line_map_parallel_go f n_errors_max rest dw ew nerr (nTimes + 1)
    else
      if n_errors_max < ((nerr + 1 : Nat) : Int) then
        ⟨dw, ew ++ [dumpsOpt r.result, "\n"], nerr + 1, ParOutcome.tooManyErrors, none⟩
      else
        line_map_parallel_go f n_errors_max rest dw (ew ++ [dumpsOpt r.result, "\n"]) (nerr + 1) (nTimes + 1)

/-- `line_map_parallel(map_func=f, ..., n_errors_max)` observed through its
collector.  `order` is the sequence in which the collector receives the
workers' results; joblib delivers exactly one result per submitted record,
so `order` ranges over the permutations of the source records (the theorems
quantify over that; `return_as="generator"` in fact yields submission
order, which is one such permutation). -/
def line_map_parallel (f : MapFunc) (n_errors_max : Int) (order : List Rec) : ParRun :=
  line_map_parallel_go f n_errors_max order [] [] 0 0

/-- Python `open(path, "w")` (jsonl_utils.py line 39): previous content of
the file is truncated. -/
def openWrite (_prior : String) : String := ""

/-- Python `open(path, "a")` (`get_error_file`, jsonl_utils.py lines
30-34): previous content of the file is kept; writes append after it. -/
def openAppend (prior : String) : String := prior

/-- `line_map` observed at file level, for a caller-supplied error file:
the destination is opened with mode `"w"`, the error file with mode `"a"`,
and the run's write calls are appended to whatever content the `open`
left.  Returns the final (destination, error-file) contents. -/
def line_map_files (f : MapFunc) (max_errors : Int) (records : List Rec)
    (priorDest priorErr : String) : String × String :=
  (openWrite priorDest ++ String.join (line_map f max_errors records).destWrites,
   openAppend priorErr ++ String.join (line_map f max_errors records).errWrites)

theorem countErrors_nil (f : MapFunc) : countErrors f [] = 0 := rfl

theorem countOk_nil (f : MapFunc) : countOk f [] = 0 := rfl

theorem countErrors_cons_ok {f : MapFunc} {r : Rec} {v : Option Rec}
    (rest : List Rec) (hfr : f r = Except.ok v) :
    countErrors f (r :: rest) = countErrors f rest := by
  simp [countErrors, List.filter_cons, hfr]

theorem countErrors_cons_error {f : MapFunc} {r : Rec} {u : Unit}
    (rest : List Rec) (hfr : f r = Except.error u) :
    countErrors f (r :: rest) = countErrors f rest + 1 := by
  simp [countErrors, List.filter_cons, hfr, Nat.add_comm]

theorem countOk_cons_ok {f : MapFunc} {r : Rec} {v : Option Rec}
    (rest : List Rec) (hfr : f r = Except.ok v) :
    countOk f (r :: rest) = countOk f rest + 1 := by
  simp [countOk, List.filter_cons, hfr, Nat.add_comm]

theorem countOk_cons_error {f : MapFunc} {r : Rec} {u : Unit}
    (rest : List Rec) (hfr : f r = Except.error u) :
    countOk f (r :: rest) = countOk f rest := by
  simp [countOk, List.filter_cons, hfr]

theorem destWritesOf_cons_ok_some {f : MapFunc} {r : Rec} {o : Rec}
    (rest : List Rec) (hfr : f r = Except.ok (some o)) :
    destWritesOf f (r :: rest) = [dumps o, "\n"] ++ destWritesOf f rest := by
  simp [destWritesOf, hfr]

theorem destWritesOf_cons_ok_none {f : MapFunc} {r : Rec}
    (rest : List Rec) (hfr : f r = Except.ok none) :
    destWritesOf f (r :: rest) = destWritesOf f rest := by
  simp [destWritesOf, hfr]

theorem destWritesOf_cons_error {f : MapFunc} {r : Rec} {u : Unit}
    (rest : List Rec) (hfr : f r = Except.error u) :
    destWritesOf f (r :: rest) = destWritesOf f rest := by
  simp [destWritesOf, hfr]

theorem errWritesOf_cons_ok {f : MapFunc} {r : Rec} {v : Option Rec}
    (rest : List Rec) (hfr : f r = Except.ok v) :
    errWritesOf f (r :: rest) = errWritesOf f rest := by
  simp [errWritesOf, hfr]

theorem errWritesOf_cons_error {f : MapFunc} {r : Rec} {u : Unit}
    (rest : List Rec) (hfr : f r = Except.error u) :
    errWritesOf f (r :: rest) = [dumps r] ++ errWritesOf f rest := by
  simp [errWritesOf, hfr]

/-- When the breaker cannot fire (the running error total stays at or below
`max_errors`, or `max_errors ≤ 0`), the sequential loop runs to the end and
the result accumulates exactly the per-record writes and counts. -/
theorem line_map_go_complete (f : MapFunc) (m : Int) (recs : List Rec) :
    ∀ (dw ew : List String) (s e : Nat), (0 < m → (e : Int) + countErrors f recs ≤ m) →
      line_map_go f m recs dw ew s e =
        ⟨dw ++ destWritesOf f recs, ew ++ errWritesOf f recs,
         s + countOk f recs, e + countErrors f recs, false⟩ := by
  induction recs with
  | nil =>
    intro dw ew s e _
    simp [line_map_go, destWritesOf, errWritesOf, countOk, countErrors]
  | cons r rest ih =>
    intro dw ew s e h
    cases hfr : f r with
    | ok v =>
      have hc := countErrors_cons_ok rest hfr
      have hko := countOk_cons_ok rest hfr
      have h' : 0 < m → (e : Int) + countErrors f rest ≤ m := by
        intro hm; have := h hm; rw [hc] at this; exact this
      cases v with
      | some o =>
        rw [destWritesOf_cons_ok_some rest hfr, errWritesOf_cons_ok rest hfr, hc, hko]
        simp only [line_map_go, hfr]
        split
        · rename_i hcond
          exfalso
          have := h' hcond.1
          have := hcond.2
          have hnn : (0 : Int) ≤ (countErrors f rest : Int) := by positivity
          omega
        · rw [ih _ _ _ _ h']
          simp only [SeqRun.mk.injEq, List.append_assoc, true_and, and_true]
          omega
      | none =>
        rw [destWritesOf_cons_ok_none rest hfr, errWritesOf_cons_ok rest hfr, hc, hko]
        simp only [line_map_go, hfr]
        split
        · rename_i hcond
          exfalso
          have := h' hcond.1
          have := hcond.2
          have hnn : (0 : Int) ≤ (countErrors f rest : Int) := by positivity
          omega
        · rw [ih _ _ _ _ h']
          simp only [SeqRun.mk.injEq, true_and, and_true]
          omega
    | error u =>
      have hc := countErrors_cons_error rest hfr
      have hko := countOk_cons_error rest hfr
      have h' : 0 < m → ((e + 1 : Nat) : Int) + countErrors f rest ≤ m := by
        intro hm; have := h hm; rw [hc] at this; push_cast at this ⊢; omega
      rw [destWritesOf_cons_error rest hfr, errWritesOf_cons_error rest hfr, hc, hko]
      simp only [line_map_go, hfr]
      split
      · rename_i hcond
        exfalso
        have := h' hcond.1
        have := hcond.2
        have hnn : (0 : Int) ≤ (countErrors f rest : Int) := by positivity
        omega
      · rw [ih _ _ _ _ h']
        simp only [SeqRun.mk.injEq, List.append_assoc, true_and, and_true]
        omega

/-- Characterization of the breaker: starting from a state in which the
check has not yet fired, the loop ends with `raise ValueError` exactly when
`max_errors` is positive and the error total over the remaining records
pushes the counter strictly past `max_errors`. -/
theorem line_map_go_aborted_iff (f : MapFunc) (m : Int) (recs : List Rec) :
    ∀ (dw ew : List String) (s e : Nat), ¬(0 < m ∧ m < (e : Int)) →
      ((line_map_go f m recs dw ew s e).aborted = true ↔
        0 < m ∧ m < (e : Int) + countErrors f recs) := by
  induction recs with
  | nil =>
    intro dw ew s e h
    simp only [line_map_go, countErrors_nil]
    simpa using h
  | cons r rest ih =>
    intro dw ew s e h
    cases hfr : f r with
    | ok v =>
      have hc := countErrors_cons_ok rest hfr
      rw [hc]
      cases v with
      | some o =>
        simp only [line_map_go, hfr]
        split
        · rename_i hcond
          exact absurd hcond h
        · exact ih _ _ _ _ h
      | none =>
        simp only [line_map_go, hfr]
        split
        · rename_i hcond
          exact absurd hcond h
        · exact ih _ _ _ _ h
    | error u =>
      have hc := countErrors_cons_error rest hfr
      rw [hc]
      simp only [line_map_go, hfr]
      split
      · rename_i hcond
        simp only [true_iff]
        have hnn : (0 : Int) ≤ (countErrors f rest : Int) := by positivity
        push_cast at hcond ⊢
        omega
      · rename_i hcond
        rw [ih _ _ _ _ hcond]
        push_cast
        constructor
        · rintro ⟨hm, hlt⟩; exact ⟨hm, by omega⟩
        · rintro ⟨hm, hlt⟩
          refine ⟨hm, ?_⟩
          push_cast at hcond
          omega

/-- When the breaker fires, it fires at the exact error that pushed the
counter past the threshold: the final error counter is `max_errors + 1`,
and the error sink has received exactly one write per counted error. -/
theorem line_map_go_abort_count (f : MapFunc) (m : Int) (recs : List Rec) :
    ∀ (dw ew : List String) (s e : Nat), ¬(0 < m ∧ m < (e : Int)) → ew.length = e →
      (line_map_go f m recs dw ew s e).aborted = true →
      ((line_map_go f m recs dw ew s e).errors : Int) = m + 1 ∧
      (line_map_go f m recs dw ew s e).errWrites.length =
        (line_map_go f m recs dw ew s e).errors := by
  induction recs with
  | nil =>
    intro dw ew s e h hlen hab
    simp [line_map_go] at hab
  | cons r rest ih =>
    intro dw ew s e h hlen hab
    cases hfr : f r with
    | ok v =>
      cases v with
      | some o =>
        simp only [line_map_go, hfr] at hab ⊢
        rw [if_neg h] at hab ⊢
        exact ih _ _ _ _ h hlen hab
      | none =>
        simp only [line_map_go, hfr] at hab ⊢
        rw [if_neg h] at hab ⊢
        exact ih _ _ _ _ h hlen hab
    | error u =>
      simp only [line_map_go, hfr] at hab ⊢
      by_cases hcond : 0 < m ∧ m < ((e + 1 : Nat) : Int)
      · rw [if_pos hcond] at hab ⊢
        refine ⟨?_, by simp [hlen]⟩
        have h1 := hcond.1
        have h2 := hcond.2
        push_cast at h2 ⊢
        omega
      · rw [if_neg hcond] at hab ⊢
        exact ih _ _ _ _ hcond (by simp [hlen]) hab

/-- The parallel collector returns no value on any path, and each counted
error corresponds to exactly two error-sink writes (the dumped record and
the terminator). -/
theorem line_map_parallel_go_shape (f : MapFunc) (nmax : Int) (order : List Rec) :
    ∀ (dw ew : List String) (nerr nTimes : Nat), ew.length = 2 * nerr →
      (line_map_parallel_go f nmax order dw ew nerr nTimes).retval = none ∧
      (line_map_parallel_go f nmax order dw ew nerr nTimes).errWrites.length =
        2 * (line_map_parallel_go f nmax order dw ew nerr nTimes).nErrors := by
  induction order with
  | nil =>
    intro dw ew nerr nTimes hlen
    simp only [line_map_parallel_go]
    split <;> exact ⟨rfl, hlen⟩
  | cons item rest ih =>
    intro dw ew nerr nTimes hlen
    cases hfr : f item with
    | ok v =>
      have hw : map_wrapper item f = { state := ItemState.Success, result := v } := by
        simp [map_wrapper, hfr]
      cases v with
      | some o =>
        simp only [line_map_parallel_go, hw]
        rw [if_pos trivial]
        exact ih _ _ _ _ hlen
      | none =>
        simp only [line_map_parallel_go, hw]
        rw [if_pos trivial]
        exact ih _ _ _ _ hlen
    | error u =>
      have hw : map_wrapper item f = { state := ItemState.Failure, result := some item } := by
        simp [map_wrapper, hfr]
      simp only [line_map_parallel_go, hw]
      rw [if_neg (by simp)]
      split
      · exact ⟨rfl, by simp [hlen]; omega⟩
      · exact ih _ _ _ _ (by simp [hlen]; omega)

theorem countOk_add_countErrors (f : MapFunc) (recs : List Rec) :
    countOk f recs + countErrors f recs = recs.length := by
  induction recs with
  | nil => rfl
  | cons r rest ih =>
    cases hfr : f r with
    | ok v =>
      rw [countOk_cons_ok rest hfr, countErrors_cons_ok rest hfr]
      simp only [List.length_cons]
      omega
    | error u =>
      rw [countOk_cons_error rest hfr, countErrors_cons_error rest hfr]
      simp only [List.length_cons]
      omega

theorem countErrors_eq_zero (f : MapFunc) (recs : List Rec)
    (h : ∀ r ∈ recs, ∃ v, f r = Except.ok v) : countErrors f recs = 0 := by
  induction recs with
  | nil => rfl
  | cons r rest ih =>
    obtain ⟨v, hv⟩ := h r (by simp)
    rw [countErrors_cons_ok rest hv]
    exact ih (fun x hx => h x (by simp [hx]))

theorem countOk_eq_length (f : MapFunc) (recs : List Rec)
    (h : ∀ r ∈ recs, ∃ v, f r = Except.ok v) : countOk f recs = recs.length := by
  have := countOk_add_countErrors f recs
  rw [countErrors_eq_zero f recs h] at this
  omega

theorem errWritesOf_eq_nil (f : MapFunc) (recs : List Rec)
    (h : ∀ r ∈ recs, ∃ v, f r = Except.ok v) : errWritesOf f recs = [] := by
  induction recs with
  | nil => rfl
  | cons r rest ih =>
    obtain ⟨v, hv⟩ := h r (by simp)
    rw [errWritesOf_cons_ok rest hv]
    exact ih (fun x hx => h x (by simp [hx]))

theorem dumps_ne_newline (r : Rec) : ¬ dumps r = "\n" := by
  intro h
  have hl := congrArg String.length h
  rw [dumps, String.length_append, String.length_append] at hl
  have h1 : ("\x7b" : String).length = 1 := rfl
  have h2 : ("\x7d" : String).length = 1 := rfl
  have h3 : ("\n" : String).length = 1 := rfl
  rw [h1, h2, h3] at hl
  omega

theorem destWritesOf_all_some (f : MapFunc) (recs : List Rec)
    (h : ∀ r ∈ recs, ∃ o, f r = Except.ok (some o)) :
    (destWritesOf f recs).length = 2 * recs.length ∧
    (destWritesOf f recs).count "\n" = recs.length := by
  induction recs with
  | nil => simp [destWritesOf]
  | cons r rest ih =>
    obtain ⟨o, ho⟩ := h r (by simp)
    obtain ⟨ih1, ih2⟩ := ih (fun x hx => h x (by simp [hx]))
    rw [destWritesOf_cons_ok_some rest ho]
    constructor
    · simp only [List.length_append, List.length_cons, List.length_nil, List.length_cons, ih1]
      omega
    · rw [List.count_append, ih2]
      have hone : List.count "\n" [dumps o, "\n"] = 1 := by
        simp [List.count_cons, dumps_ne_newline o]
      rw [hone]
      simp only [List.length_cons]
      omega

theorem destWritesOf_all_none (f : MapFunc) (recs : List Rec)
    (h : ∀ r ∈ recs, f r = Except.ok none) : destWritesOf f recs = [] := by
  induction recs with
  | nil => rfl
  | cons r rest ih =>
    rw [destWritesOf_cons_ok_none rest (h r (by simp))]
    exact ih (fun x hx => h x (by simp [hx]))

/-- C1 (counterexample to the claim as stated): on the spec's three-record
scenario with the default `n_errors_max = 5`, `line_map_parallel` completes
normally but delivers no `(successCount, errorCount)` pair to its caller —
its body has no `return` statement, so the call evaluates to `None`. -/
theorem line_map_parallel_completed_no_pair :
    (line_map_parallel doubleA 5 input3).outcome = ParOutcome.completed ∧
    (line_map_parallel doubleA 5 input3).retval = none := by decide

/-- C1 (amended): every run of `line_map_parallel` returns `None` — the
function never returns the `(successCount, errorCount)` pair (it does not
even track a success counter); the only counter it maintains, `n_errors`,
matches the error-sink writes (two writes — record and terminator — per
counted error). -/
theorem line_map_parallel_returns_none (f : MapFunc) (nmax : Int) (order : List Rec) :
    (line_map_parallel f nmax order).retval = none ∧
    (line_map_parallel f nmax order).errWrites.length =
      2 * (line_map_parallel f nmax order).nErrors :=
  line_map_parallel_go_shape f nmax order [] [] 0 0 rfl

/-- C2: the sequential breaker fires exactly when `max_errors > 0` and the
error counter strictly exceeds `max_errors`; with `max_errors ≤ 0` the run
never aborts and consumes every record; and on the concrete three-record
scenario with one failing record and `max_errors = 1` the run completes
normally returning `(2, 1)`. -/
theorem line_map_breaker (f : MapFunc) (m : Int) (recs : List Rec) :
    ((line_map f m recs).aborted = true ↔ 0 < m ∧ m < (countErrors f recs : Int)) ∧
    (m ≤ 0 → (line_map f m recs).aborted = false ∧
      (line_map f m recs).successes + (line_map f m recs).errors = recs.length) ∧
    ((line_map doubleA 1 input3).retval = some (2, 1) ∧
      (line_map doubleA 1 input3).aborted = false) := by
  refine ⟨?_, ?_, by decide⟩
  · have h := line_map_go_aborted_iff f m recs [] [] 0 0 (by omega)
    rw [line_map]
    rw [h]
    constructor
    · rintro ⟨hm, hlt⟩; exact ⟨hm, by omega⟩
    · rintro ⟨hm, hlt⟩; exact ⟨hm, by omega⟩
  · intro hm
    have h0 : 0 < m → ((0 : Nat) : Int) + countErrors f recs ≤ m := fun hc => absurd hc (by omega)
    have hrun := line_map_go_complete f m recs [] [] 0 0 h0
    rw [line_map, hrun]
    refine ⟨rfl, ?_⟩
    simpa using countOk_add_countErrors f recs

/-- Witness for C2: with `max_errors = 0` the breaker never fires on the
scenario input, and with `max_errors = 1` the scenario run returns
`(2, 1)`. -/
theorem line_map_breaker_witness :
    (line_map doubleA 0 input3).aborted = false ∧
    (line_map doubleA 1 input3).retval = some (2, 1) :=
  ⟨((line_map_breaker doubleA 0 input3).2.1 (le_refl 0)).1,
   ((line_map_breaker doubleA 1 input3).2.2).1⟩

/-- C3 (counterexample to the claim as stated): in parallel mode
`n_errors_max = 0` is not "unbounded": the collector's check
`n_errors > n_errors_max` fires on the first failing record of the
scenario input, so the run raises the too-many-errors exception instead of
completing. -/
theorem line_map_parallel_maxzero_aborts :
    (line_map_parallel doubleA 0 input3).outcome = ParOutcome.tooManyErrors := by decide

/-- C3 (amended): on the scenario input with `n_errors_max = 1` (any
positive bound at least 1; 0 aborts the run), whatever completion order
the workers produce, the parallel run completes normally having counted
one error, and its destination and error-sink lines agree with the
sequential run's as multisets. -/
theorem line_map_parallel_scenario (order : List Rec) (h : order.Perm input3) :
    (line_map_parallel doubleA 1 order).outcome = ParOutcome.completed ∧
    Multiset.ofList (fileLines (line_map_parallel doubleA 1 order).destWrites) =
      Multiset.ofList (fileLines (line_map doubleA 1 input3).destWrites) ∧
    fileLines (line_map_parallel doubleA 1 order).errWrites =
      fileLines (line_map doubleA 1 input3).errWrites ∧
    (line_map_parallel doubleA 1 order).nErrors = 1 := by
  have key : ∀ x ∈ input3.permutations',
      (line_map_parallel doubleA 1 x).outcome = ParOutcome.completed ∧
      Multiset.ofList (fileLines (line_map_parallel doubleA 1 x).destWrites) =
        Multiset.ofList (fileLines (line_map doubleA 1 input3).destWrites) ∧
      fileLines (line_map_parallel doubleA 1 x).errWrites =
        fileLines (line_map doubleA 1 input3).errWrites ∧
      (line_map_parallel doubleA 1 x).nErrors = 1 := by decide
  exact key order (List.mem_permutations'.2 h)

/-- Witness for C3 (amended), at the submission order itself. -/
theorem line_map_parallel_scenario_witness :
    (line_map_parallel doubleA 1 input3).outcome = ParOutcome.completed ∧
    Multiset.ofList (fileLines (line_map_parallel doubleA 1 input3).destWrites) =
      Multiset.ofList (fileLines (line_map doubleA 1 input3).destWrites) ∧
    fileLines (line_map_parallel doubleA 1 input3).errWrites =
      fileLines (line_map doubleA 1 input3).errWrites ∧
    (line_map_parallel doubleA 1 input3).nErrors = 1 :=
  line_map_parallel_scenario input3 (List.Perm.refl input3)

/-- C4 (the code diverges from the claim): the sequential mapper writes a
rejected record to the error sink with *no* line terminator
(`err_file.write(json.dumps(nxt))` is its only error-sink write), so two
rejected records end up concatenated on a single line; the parallel mapper
does write the terminator, giving one line per rejected record.  Both do
write the verbatim original record. -/
theorem line_map_error_sink_no_terminator :
    (line_map failAll (-1) twoRecs).errWrites =
      [dumps [("a", JVal.jnum 1)], dumps [("a", JVal.jnum 2)]] ∧
    fileLines (line_map failAll (-1) twoRecs).errWrites =
      [dumps [("a", JVal.jnum 1)] ++ dumps [("a", JVal.jnum 2)]] ∧
    fileLines (line_map_parallel failAll 5 twoRecs).errWrites =
      [dumps [("a", JVal.jnum 1)], dumps [("a", JVal.jnum 2)]] := by decide

/-- C5 (counterexample to the claim as stated): on an empty input the
parallel mapper does not complete normally — after its (empty) collector
loop it evaluates `min(all_times)` on an empty list, which raises
`ValueError`. -/
theorem line_map_parallel_empty_raises :
    (line_map_parallel doubleA 5 ([] : List Rec)).outcome = ParOutcome.emptyStatsError := by
  decide

/-- C5 (amended): on an empty input the sequential mapper completes
normally with `(0, 0)` and no writes to either file; the parallel mapper
likewise writes nothing to either file, but instead of completing it
raises `ValueError` from `min(all_times)` (and returns no counts). -/
theorem empty_input_behavior (f : MapFunc) (m nmax : Int) :
    line_map f m [] = ⟨[], [], 0, 0, false⟩ ∧
    (line_map f m []).retval = some (0, 0) ∧
    line_map_parallel f nmax [] = ⟨[], [], 0, ParOutcome.emptyStatsError, none⟩ :=
  ⟨rfl, rfl, rfl⟩

/-- C6: the parallel per-item adapter is total — when the transform raises
on a record it returns a `MapResult` with state `Failure` carrying the
original input record, and when the transform returns it passes the value
through with state `Success`; in neither case does an exception escape the
adapter. -/
theorem map_wrapper_total (f : MapFunc) (item : Rec) :
    (∀ u : Unit, f item = Except.error u →
      map_wrapper item f = { state := ItemState.Failure, result := some item }) ∧
    (∀ v : Option Rec, f item = Except.ok v →
      map_wrapper item f = { state := ItemState.Success, result := v }) := by
  constructor
  · intro u hu
    simp [map_wrapper, hu]
  · intro v hv
    simp [map_wrapper, hv]

/-- Witness for C6: the scenario transform raises on the non-numeric
record, and the adapter converts that into a `Failure` carrying the
original record. -/
theorem map_wrapper_total_witness :
    map_wrapper [("a", JVal.jstr "bad")] doubleA =
      { state := ItemState.Failure, result := some [("a", JVal.jstr "bad")] } :=
  (map_wrapper_total doubleA [("a", JVal.jstr "bad")]).1 () rfl

/-- C7: when the transform succeeds with a non-`None` record on every
input record, the sequential mapper returns `(N, 0)`, writes nothing to
the error sink, and writes exactly `N` terminated lines (two write calls
per record) to the destination — for any `max_errors` setting. -/
theorem line_map_all_success (f : MapFunc) (m : Int) (recs : List Rec)
    (h : ∀ r ∈ recs, ∃ o, f r = Except.ok (some o)) :
    (line_map f m recs).retval = some (recs.length, 0) ∧
    (line_map f m recs).errWrites = [] ∧
    (line_map f m recs).destWrites.length = 2 * recs.length ∧
    (line_map f m recs).destWrites.count "\n" = recs.length := by
  have hok : ∀ r ∈ recs, ∃ v, f r = Except.ok v := by
    intro r hr
    obtain ⟨o, ho⟩ := h r hr
    exact ⟨some o, ho⟩
  have hz := countErrors_eq_zero f recs hok
  have h0 : 0 < m → ((0 : Nat) : Int) + countErrors f recs ≤ m := by
    intro hc; rw [hz]; omega
  have hrun := line_map_go_complete f m recs [] [] 0 0 h0
  rw [line_map, hrun]
  obtain ⟨hlen, hcount⟩ := destWritesOf_all_some f recs h
  refine ⟨?_, ?_, ?_, ?_⟩
  · simp [SeqRun.retval, hz, countOk_eq_length f recs hok]
  · simpa using errWritesOf_eq_nil f recs hok
  · simpa using hlen
  · simpa using hcount

/-- Witness for C7: the doubling transform succeeds on both all-numeric
records; the run returns `(2, 0)` with four destination write calls and
two lines. -/
theorem line_map_all_success_witness :
    (line_map doubleA (-1) twoRecs).retval = some (2, 0) ∧
    (line_map doubleA (-1) twoRecs).errWrites = [] ∧
    (line_map doubleA (-1) twoRecs).destWrites.length = 2 * 2 ∧
    (line_map doubleA (-1) twoRecs).destWrites.count "\n" = 2 :=
  line_map_all_success doubleA (-1) twoRecs (by
    intro r hr
    fin_cases hr
    · exact ⟨[("a", JVal.jnum 2)], rfl⟩
    · exact ⟨[("a", JVal.jnum 4)], rfl⟩)

/-- C8: a transform returning `None` on every record makes the sequential
mapper return `(N, 0)` with no destination writes and no error-sink
writes. -/
theorem line_map_all_none (f : MapFunc) (m : Int) (recs : List Rec)
    (h : ∀ r ∈ recs, f r = Except.ok none) :
    (line_map f m recs).retval = some (recs.length, 0) ∧
    (line_map f m recs).destWrites = [] ∧
    (line_map f m recs).errWrites = [] := by
  have hok : ∀ r ∈ recs, ∃ v, f r = Except.ok v := fun r hr => ⟨none, h r hr⟩
  have hz := countErrors_eq_zero f recs hok
  have h0 : 0 < m → ((0 : Nat) : Int) + countErrors f recs ≤ m := by
    intro hc; rw [hz]; omega
  have hrun := line_map_go_complete f m recs [] [] 0 0 h0
  rw [line_map, hrun]
  refine ⟨?_, ?_, ?_⟩
  · simp [SeqRun.retval, hz, countOk_eq_length f recs hok]
  · simpa using destWritesOf_all_none f recs h
  · simpa using errWritesOf_eq_nil f recs hok

/-- Witness for C8: the constantly-`None` transform on two records. -/
theorem line_map_all_none_witness :
    (line_map dropAll 4 twoRecs).retval = some (2, 0) ∧
    (line_map dropAll 4 twoRecs).destWrites = [] ∧
    (line_map dropAll 4 twoRecs).errWrites = [] :=
  line_map_all_none dropAll 4 twoRecs (fun _ _ => rfl)

/-- C9: whenever the sequential mapper aborts with the too-many-errors
condition, the error counter at that moment is exactly `max_errors + 1`,
and the error sink has received exactly one write per counted error — the
breaker fires on the very record that pushed the counter past the
threshold. -/
theorem line_map_abort_error_count (f : MapFunc) (m : Int) (recs : List Rec)
    (hab : (line_map f m recs).aborted = true) :
    ((line_map f m recs).errors : Int) = m + 1 ∧
    (line_map f m recs).errWrites.length = (line_map f m recs).errors :=
  line_map_go_abort_count f m recs [] [] 0 0 (by omega) rfl hab

/-- Witness for C9: an always-failing transform with `max_errors = 1`
aborts with the error counter at `2`. -/
theorem line_map_abort_error_count_witness :
    ((line_map failAll 1 input3).errors : Int) = 1 + 1 ∧
    (line_map failAll 1 input3).errWrites.length = (line_map failAll 1 input3).errors :=
  line_map_abort_error_count failAll 1 input3 (by decide)

/-- C10: the destination file is opened with mode `"w"`, so its final
content is exactly the run's writes regardless of prior content; a
caller-supplied error file is opened with mode `"a"`, so its prior content
survives unchanged as a prefix of the final content. -/
theorem line_map_file_modes (f : MapFunc) (m : Int) (recs : List Rec)
    (p₁ p₂ q : String) :
    (line_map_files f m recs p₁ q).1 = (line_map_files f m recs p₂ q).1 ∧
    (line_map_files f m recs p₁ q).1 = String.join (line_map f m recs).destWrites ∧
    (line_map_files f m recs p₁ q).2 = q ++ String.join (line_map f m recs).errWrites :=
  ⟨rfl, rfl, rfl⟩
